import Mathlib

/-!
Shallow embedding of the inventory engine `SistemaInventario` from
`codigo_proyecto.final.py` (Sistema de Inventario Empresarial v3.3).

Modelling conventions:
* A Python product dict is a fixed-field record `Producto`; prices are
  modelled as `Rat` (the engine never performs float arithmetic on them,
  it only copies and parses them), stocks and quantities as `Int`
  (Python integers).
* The three JSON documents under `data/` are a `Disk` record carried
  inside the system state; `guardar_datos` overwrites the disk with the
  in-memory collections and `cargar_datos` copies the disk back into
  memory (with the first-run bootstrap branch when the branches document
  is empty).  Documents are modelled as always present and well formed;
  the `data/productos_iniciales.csv` bootstrap file is modelled as
  absent, so the bootstrap takes the sample-data branch of
  `_configuracion_inicial`.
* In-place mutation of a product dict is modelled as a functional update
  of the product list at the index of the dict: `buscarRef` performs the
  linear scan of `buscar_producto_por_sku_y_sucursal` and returns the
  index together with the record, modelling the dict reference the
  Python function returns.
* `uuid.uuid4()` values and `datetime.now()` timestamps are oracle
  inputs passed as explicit arguments.
-/

/-- A product record: the dict
`{'id', 'sku', 'nombre', 'precio', 'stock', 'sucursal'}` built by
`agregar_producto`. -/
structure Producto where
  id : String
  sku : String
  nombre : String
  precio : Rat
  stock : Int
  sucursal : String
deriving DecidableEq, Repr

/-- A sale line item.  `registrar_venta` reads only the keys `'sku'` and
`'cantidad'` of each item dict; the GUI-supplied keys `'nombre'`,
`'precio_unitario'` and `'subtotal'` are never read by the engine and are
omitted from the embedding. -/
structure ItemVenta where
  sku : String
  cantidad : Int
deriving DecidableEq, Repr

/-- A sale record as appended by `registrar_venta`. -/
structure Venta where
  id : String
  fecha : String
  items : List ItemVenta
  sucursal : String
  total : Rat
deriving DecidableEq, Repr

/-- The three JSON documents `data/inventario.json`,
`data/sucursales.json` and `data/ventas.json`.  The branches document is
a dict whose values are always empty dicts, so it is modelled by its key
list. -/
structure Disk where
  inventario : List Producto
  sucursalesDoc : List String
  ventasDoc : List Venta
deriving DecidableEq, Repr

/-- The state of a `SistemaInventario` object together with the persisted
documents.  `config` holds the single key `stock_minimo_alerta`
(initialised to 10 and never mutated by the engine). -/
structure Sistema where
  productos : List Producto
  sucursales : List String
  ventas : List Venta
  stock_minimo_alerta : Int
  disk : Disk
deriving DecidableEq, Repr

/-- The business key of a product: the (SKU, branch) pair. -/
def clave (p : Producto) : String × String :=
  (p.sku, p.sucursal)

/-- Functional counterpart of mutating the element at index `i` in place
(used where Python reads and writes a dict found earlier in the list). -/
def modifyIdx : List α → Nat → (α → α) → List α
  | [], _, _ => []
  | a :: l, 0, f => f a :: l
  | a :: l, n + 1, f => a :: modifyIdx l n f

/-- `buscar_producto_por_sku_y_sucursal`: linear scan returning the first
product whose (sku, sucursal) matches.  The embedding returns the index
of the record together with the record itself; the index models the dict
reference that the Python function returns and through which callers
mutate the store. -/
def buscarRef : List Producto → String → String → Option (Nat × Producto)
  | [], _, _ => none
  | p :: resto, sku, sucursal =>
    if p.sku = sku ∧ p.sucursal = sucursal then some (0, p)
    else (buscarRef resto sku sucursal).map (fun r => (r.1 + 1, r.2))

/-- The value returned by the source function itself: just the record. -/
def buscar_producto_por_sku_y_sucursal (l : List Producto) (sku sucursal : String) :
    Option Producto :=
  (buscarRef l sku sucursal).map (·.2)

/-- `guardar_datos`: unconditionally overwrite the three documents with
the current in-memory collections. -/
def guardar_datos (s : Sistema) : Sistema :=
  { s with disk := ⟨s.productos, s.sucursales, s.ventas⟩ }

/-- The sample data created by `_crear_datos_de_ejemplo`.  The source
dicts carry no `'id'` key; the missing key is modelled as the empty
string. -/
def datos_de_ejemplo : List Producto :=
  [⟨"", "TEC-001", "Teclado Mecanico", (8999 : Rat) / 100, 15, "Centro"⟩,
   ⟨"", "MOU-001", "Mouse Gamer RGB", (4550 : Rat) / 100, 35, "Centro"⟩,
   ⟨"", "TEC-001", "Teclado Mecanico", (8999 : Rat) / 100, 8, "Norte"⟩]

/-- `_crear_datos_de_ejemplo`: replace branches and products with the
sample data and save. -/
def crear_datos_de_ejemplo (s : Sistema) : Sistema :=
  guardar_datos { s with
    sucursales := ["Centro", "Norte", "Sur"],
    productos := datos_de_ejemplo }

/-- `cargar_datos`: copy the branches and products documents into memory;
if the branches collection is then empty run the first-run bootstrap
(`_configuracion_inicial`, here the sample-data branch because the
initial-catalog CSV is modelled as absent); finally copy the sales
document into memory.  Note that the sales document is read after the
bootstrap possibly saved, exactly as in the source. -/
def cargar_datos (s : Sistema) : Sistema :=
  let s1 := { s with
    sucursales := s.disk.sucursalesDoc,
    productos := s.disk.inventario }
  let s2 := if s1.sucursales = [] then crear_datos_de_ejemplo s1 else s1
  { s2 with ventas := s2.disk.ventasDoc }

/-- `agregar_producto`: refuse when a product with the same (sku,
sucursal) already exists; otherwise append a new record and save.
`newId` is the oracle input modelling `str(uuid.uuid4())`; the source's
`float(precio)` and `int(stock)` coercions are identities here because
the arguments already carry the modelled types. -/
def agregar_producto (s : Sistema) (newId sku nombre : String) (precio : Rat)
    (stock : Int) (sucursal : String) : Sistema × Bool × String :=
  match buscarRef s.productos sku sucursal with
  | some _ => (s, false, "SKU " ++ sku ++ " ya existe en " ++ sucursal ++ ".")
  | none =>
    (guardar_datos { s with
       productos := s.productos ++ [⟨newId, sku, nombre, precio, stock, sucursal⟩] },
     true, "Producto agregado.")

/-- The `nuevos_datos` dict passed to `editar_producto`.  The source
merges every key present in the dict via `dict.update`; a `none` field
models an absent key. -/
structure DatosEdicion where
  id : Option String
  sku : Option String
  nombre : Option String
  precio : Option Rat
  stock : Option Int
  sucursal : Option String
deriving DecidableEq, Repr

/-- `producto.update(nuevos_datos)`: merge every present key into the
record. -/
def actualizar (p : Producto) (d : DatosEdicion) : Producto :=
  ⟨d.id.getD p.id, d.sku.getD p.sku, d.nombre.getD p.nombre,
   d.precio.getD p.precio, d.stock.getD p.stock, d.sucursal.getD p.sucursal⟩

/-- `editar_producto`: merge the patch into the first matching record and
save, or return failure leaving everything untouched. -/
def editar_producto (s : Sistema) (sku sucursal : String) (nuevos_datos : DatosEdicion) :
    Sistema × Bool :=
  match buscarRef s.productos sku sucursal with
  | some (i, p) =>
    (guardar_datos { s with productos := s.productos.set i (actualizar p nuevos_datos) },
     true)
  | none => (s, false)

/-- Phase-1 check of `registrar_venta` for one line item: the product
must resolve in the target branch and its current stock must not be
below the requested quantity. -/
def validarItem (productos : List Producto) (sucursal : String) (item : ItemVenta) : Bool :=
  match buscar_producto_por_sku_y_sucursal productos item.sku sucursal with
  | none => false
  | some p => !(p.stock < item.cantidad)

/-- Phase 2 of `registrar_venta`: for each item in order, re-resolve the
product, decrement its stock in place, and append the product to the
low-stock list when the just-decremented stock is at or below the
threshold.  The low-stock list holds indices into the product list,
modelling the dict references Python appends.  The `none` branch is
unreachable when phase 1 succeeded (resolution only depends on sku and
sucursal, which phase 2 never changes). -/
def fase2 (umbral : Int) (sucursal : String) :
    List Producto → List ItemVenta → List Producto × List Nat
  | productos, [] => (productos, [])
  | productos, item :: resto =>
    match buscarRef productos item.sku sucursal with
    | some (i, p) =>
      let productos1 := productos.set i { p with stock := p.stock - item.cantidad }
      let r := fase2 umbral sucursal productos1 resto
      (r.1, (if p.stock - item.cantidad ≤ umbral then [i] else []) ++ r.2)
    | none => fase2 umbral sucursal productos resto

/-- `registrar_venta`: validate every line item against the current
(un-decremented) stocks; on any failure reload memory from disk and
return failure (the source returns at the first failing item, but phase
1 performs no mutation before that point and the failure action does not
depend on the item, so checking all items first is observably
identical).  On success apply phase 2, append the sale record, save, and
return the low-stock list and the sale id.  `ventaId` and `fecha` are
oracle inputs modelling the generated id and `datetime.now()`. -/
def registrar_venta (s : Sistema) (ventaId fecha : String) (items_venta : List ItemVenta)
    (sucursal : String) (total : Rat) : Sistema × Bool × List Nat × Option String :=
  if items_venta.all (validarItem s.productos sucursal) then
    let r := fase2 s.stock_minimo_alerta sucursal s.productos items_venta
    let s1 := { s with
      productos := r.1,
      ventas := s.ventas ++ [⟨ventaId, fecha, items_venta, sucursal, total⟩] }
    (guardar_datos s1, true, r.2, some ventaId)
  else
    (cargar_datos s, false, [], none)

/-- `transferir_productos`: resolve the origin product; fail when absent
or when its stock is below the quantity.  Otherwise resolve the
destination product (before the decrement, as in the source), decrement
the origin stock, then either increment the destination record in place
or append a clone of the (already decremented) origin record with a
fresh id, the destination branch, and stock equal to the transferred
quantity.  `newId` is the oracle input for `str(uuid.uuid4())`. -/
def transferir_productos (s : Sistema) (newId sku : String) (cantidad : Int)
    (origen destino : String) : Sistema × Bool × String :=
  match buscarRef s.productos sku origen with
  | none => (s, false, "Producto no encontrado en " ++ origen ++ ".")
  | some (i, pOrigen) =>
    if pOrigen.stock < cantidad then
      (s, false, "Stock insuficiente en " ++ origen ++ ".")
    else
      let destRef := buscarRef s.productos sku destino
      let productos1 := s.productos.set i { pOrigen with stock := pOrigen.stock - cantidad }
      match destRef with
      | some (j, _) =>
        let productos2 := modifyIdx productos1 j (fun q => { q with stock := q.stock + cantidad })
        (guardar_datos { s with productos := productos2 }, true,
         "Transferencia de " ++ sku ++ " de " ++ origen ++ " a " ++ destino ++ " exitosa.")
      | none =>
        let nuevo : Producto :=
          { pOrigen with id := newId, sucursal := destino, stock := cantidad }
        (guardar_datos { s with productos := productos1 ++ [nuevo] }, true,
         "Transferencia de " ++ sku ++ " de " ++ origen ++ " a " ++ destino ++ " exitosa.")

/-- One CSV row as produced by `csv.DictReader`.  The source parses
`precio` with `float` and `stock` with `int`, catching any exception at
the `procesar_carga_csv` level; a `none` field models a value on which
the parse raises (non-numeric, or a missing column read as `None`).
The string columns `sku`, `nombre`, `sucursal` are modelled as present. -/
structure Fila where
  sku : String
  nombre : String
  precio : Option Rat
  stock : Option Int
  sucursal : String
deriving DecidableEq, Repr

/-- Result of the row loop of `procesar_carga_csv`. -/
structure ResCarga where
  sistema : Sistema
  ids : List String
  ok : Bool
  creados : Nat
  actualizados : Nat
deriving DecidableEq, Repr

/-- The row loop of `procesar_carga_csv`.  Per row: register the branch
when unknown; when a product with the row's (sku, sucursal) exists,
parse the stock (aborting on failure) and add it to the existing record;
otherwise parse price and stock (aborting on failure, in either case
before any product mutation for that row) and create the product via
`agregar_producto` — which itself saves, as in the source.  An abort
returns the state as mutated so far with `ok := false`, modelling the
exception caught by the enclosing `try`. -/
def procesarFilas (s : Sistema) (ids : List String) (creados actualizados : Nat) :
    List Fila → ResCarga
  | [] => ⟨s, ids, true, creados, actualizados⟩
  | fila :: resto =>
    let s1 := if fila.sucursal ∈ s.sucursales then s
              else { s with sucursales := s.sucursales ++ [fila.sucursal] }
    match buscarRef s1.productos fila.sku fila.sucursal with
    | some (i, p) =>
      match fila.stock with
      | none => ⟨s1, ids, false, creados, actualizados⟩
      | some st =>
        let s2 := { s1 with productos := s1.productos.set i { p with stock := p.stock + st } }
        procesarFilas s2 ids creados (actualizados + 1) resto
    | none =>
      match fila.precio, fila.stock with
      | some pr, some st =>
        let s2 := (agregar_producto s1 (ids.headD "") fila.sku fila.nombre pr st fila.sucursal).1
        procesarFilas s2 ids.tail (creados + 1) actualizados resto
      | _, _ => ⟨s1, ids, false, creados, actualizados⟩

/-- `procesar_carga_csv`: run the row loop; on success save once more and
report the counts, on a parse failure return failure with the state as
mutated so far.  `ids` is the oracle stream of `uuid` values consumed by
product creations. -/
def procesar_carga_csv (s : Sistema) (ids : List String) (filas : List Fila) :
    Sistema × Bool × String :=
  let r := procesarFilas s ids 0 0 filas
  if r.ok then
    (guardar_datos r.sistema, true,
     toString r.creados ++ " creados, " ++ toString r.actualizados ++ " actualizados.")
  else
    (r.sistema, false, "Error al leer el CSV")

/-- The state built by `__init__` for a given disk contents: empty
collections, threshold 10, then `cargar_datos`. -/
def sistemaInicial (d : Disk) : Sistema :=
  cargar_datos ⟨[], [], [], 10, d⟩

/-- Uniqueness invariant: no two products share the (sku, sucursal)
business key. -/
def unicidad (l : List Producto) : Prop :=
  (l.map clave).Nodup

instance (l : List Producto) : Decidable (unicidad l) := by
  unfold unicidad; infer_instance

/-- An operation of the AddProduct/BulkImport fragment, used to state
the uniqueness invariant over arbitrary call sequences. -/
inductive OperacionC5 where
  | agregar : String → String → String → Rat → Int → String → OperacionC5
  | carga : List String → List Fila → OperacionC5
deriving DecidableEq, Repr

/-- Run one AddProduct/BulkImport operation on the state. -/
def ejecutarC5 (s : Sistema) : OperacionC5 → Sistema
  | .agregar newId sku nombre precio stock sucursal =>
    (agregar_producto s newId sku nombre precio stock sucursal).1
  | .carga ids filas => (procesar_carga_csv s ids filas).1

/-! ### Basic facts about the linear search and index update -/

theorem buscarRef_some {l : List Producto} {sku sucursal : String} {i : Nat} {p : Producto}
    (h : buscarRef l sku sucursal = some (i, p)) :
    l[i]? = some p ∧ p.sku = sku ∧ p.sucursal = sucursal := by
  induction l generalizing i with
  | nil => simp [buscarRef] at h
  | cons q resto ih =>
    by_cases hq : q.sku = sku ∧ q.sucursal = sucursal
    · simp [buscarRef, hq] at h
      obtain ⟨hi, hp⟩ := h
      subst hi; subst hp
      simpa using hq
    · simp [buscarRef, hq] at h
      obtain ⟨a, hr, hi⟩ := h
      subst hi
      obtain ⟨h1, h2, h3⟩ := ih hr
      exact ⟨by simpa using h1, h2, h3⟩

theorem buscarRef_lt_length {l : List Producto} {sku sucursal : String} {i : Nat} {p : Producto}
    (h : buscarRef l sku sucursal = some (i, p)) : i < l.length := by
  have := (buscarRef_some h).1
  exact (List.getElem?_eq_some.mp this).1

theorem buscarRef_eq_none {l : List Producto} {sku sucursal : String} :
    buscarRef l sku sucursal = none ↔
      ∀ p ∈ l, ¬ (p.sku = sku ∧ p.sucursal = sucursal) := by
  induction l with
  | nil => simp [buscarRef]
  | cons q resto ih =>
    by_cases hq : q.sku = sku ∧ q.sucursal = sucursal
    · simp [buscarRef, hq]
    · simp only [buscarRef, if_neg hq, Option.map_eq_none', ih]
      constructor
      · intro h p hp
        rcases List.mem_cons.mp hp with hp | hp
        · subst hp; exact hq
        · exact h p hp
      · intro h p hp
        exact h p (List.mem_cons_of_mem _ hp)

theorem length_modifyIdx (l : List α) (i : Nat) (f : α → α) :
    (modifyIdx l i f).length = l.length := by
  induction l generalizing i with
  | nil => rfl
  | cons a l ih =>
    cases i with
    | zero => rfl
    | succ n => simp [modifyIdx, ih]

theorem getElem?_modifyIdx_self {l : List α} {i : Nat} {f : α → α} {a : α}
    (h : l[i]? = some a) : (modifyIdx l i f)[i]? = some (f a) := by
  induction l generalizing i with
  | nil => simp at h
  | cons b l ih =>
    cases i with
    | zero => simp at h; simp [modifyIdx, h]
    | succ n =>
      simp at h
      simpa [modifyIdx] using ih h

theorem getElem?_modifyIdx_ne {l : List α} {i j : Nat} {f : α → α} (h : i ≠ j) :
    (modifyIdx l i f)[j]? = l[j]? := by
  induction l generalizing i j with
  | nil => rfl
  | cons b l ih =>
    cases i with
    | zero =>
      cases j with
      | zero => exact absurd rfl h
      | succ m => simp [modifyIdx]
    | succ n =>
      cases j with
      | zero => simp [modifyIdx]
      | succ m =>
        simp only [modifyIdx]
        simpa using ih (by omega)

theorem modifyIdx_set_same (l : List α) (i : Nat) (a : α) (f : α → α) :
    modifyIdx (l.set i a) i f = l.set i (f a) := by
  induction l generalizing i with
  | nil => rfl
  | cons b l ih =>
    cases i with
    | zero => rfl
    | succ n => simp [modifyIdx, List.set, ih]

theorem set_of_getElem? {l : List α} {i : Nat} {a : α} (h : l[i]? = some a) :
    l.set i a = l := by
  induction l generalizing i with
  | nil => rfl
  | cons b l ih =>
    cases i with
    | zero => simp at h; simp [List.set, h]
    | succ n => simp at h; simp [List.set, ih h]

/-- The result index of the linear search only depends on the business
keys of the records: lists with the same key sequence have the same
search index. -/
theorem buscarRef_fst_congr {l₁ l₂ : List Producto}
    (h : l₁.map clave = l₂.map clave) (sku sucursal : String) :
    (buscarRef l₁ sku sucursal).map (·.1) = (buscarRef l₂ sku sucursal).map (·.1) := by
  induction l₁ generalizing l₂ with
  | nil =>
    cases l₂ with
    | nil => rfl
    | cons q r₂ => simp at h
  | cons p r ih =>
    cases l₂ with
    | nil => simp at h
    | cons q r₂ =>
      simp only [List.map_cons, List.cons.injEq] at h
      obtain ⟨hkey, hrest⟩ := h
      have hsku : p.sku = q.sku := congrArg Prod.fst hkey
      have hsuc : p.sucursal = q.sucursal := congrArg Prod.snd hkey
      by_cases hp : p.sku = sku ∧ p.sucursal = sucursal
      · have hq : q.sku = sku ∧ q.sucursal = sucursal := by
          rw [← hsku, ← hsuc]; exact hp
        simp [buscarRef, hp, hq]
      · have hq : ¬ (q.sku = sku ∧ q.sucursal = sucursal) := by
          rw [← hsku, ← hsuc]; exact hp
        simp only [buscarRef, if_neg hp, if_neg hq, Option.map_map]
        have := ih hrest
        calc ((buscarRef r sku sucursal).map ((·.1) ∘ fun x => (x.1 + 1, x.2)))
            = ((buscarRef r sku sucursal).map (·.1)).map (· + 1) := by
              rw [Option.map_map]; rfl
          _ = ((buscarRef r₂ sku sucursal).map (·.1)).map (· + 1) := by rw [this]
          _ = (buscarRef r₂ sku sucursal).map ((·.1) ∘ fun x => (x.1 + 1, x.2)) := by
              rw [Option.map_map]; rfl

theorem map_clave_set {l : List Producto} {i : Nat} {p a : Producto}
    (h : l[i]? = some p) (hk : clave a = clave p) :
    (l.set i a).map clave = l.map clave := by
  rw [List.map_set, hk]
  exact set_of_getElem? (by simp [List.getElem?_map, h])

/-! ### Facts about phase 2 of `registrar_venta` -/

theorem fase2_map_clave (umbral : Int) (sucursal : String) (items : List ItemVenta) :
    ∀ productos : List Producto,
      (fase2 umbral sucursal productos items).1.map clave = productos.map clave := by
  induction items with
  | nil => intro productos; simp [fase2]
  | cons item resto ih =>
    intro productos
    cases hfind : buscarRef productos item.sku sucursal with
    | none => simpa [fase2, hfind] using ih productos
    | some r =>
      obtain ⟨i, p⟩ := r
      obtain ⟨h1, _, _⟩ := buscarRef_some hfind
      simp only [fase2, hfind]
      rw [ih]
      exact map_clave_set h1 rfl

theorem fase2_length (umbral : Int) (sucursal : String) (items : List ItemVenta)
    (productos : List Producto) :
    (fase2 umbral sucursal productos items).1.length = productos.length := by
  have := congrArg List.length (fase2_map_clave umbral sucursal items productos)
  simpa using this

theorem fase2_frame (umbral : Int) (sucursal : String) (items : List ItemVenta) :
    ∀ (productos : List Producto) (i : Nat),
      (∀ it ∈ items, (buscarRef productos it.sku sucursal).map (·.1) ≠ some i) →
      (fase2 umbral sucursal productos items).1[i]? = productos[i]? := by
  induction items with
  | nil => intro productos i _; simp [fase2]
  | cons item resto ih =>
    intro productos i h
    cases hfind : buscarRef productos item.sku sucursal with
    | none =>
      simpa [fase2, hfind] using
        ih productos i (fun it hit => h it (List.mem_cons_of_mem _ hit))
    | some r =>
      obtain ⟨k, p⟩ := r
      obtain ⟨hk, _, _⟩ := buscarRef_some hfind
      have hki : k ≠ i := by
        intro heq
        exact h item (List.mem_cons_self _ _) (by simp [hfind, heq])
      simp only [fase2, hfind]
      have hcong : ∀ sk su,
          (buscarRef (productos.set k { p with stock := p.stock - item.cantidad }) sk su).map (·.1)
            = (buscarRef productos sk su).map (·.1) := by
        intro sk su
        exact buscarRef_fst_congr
          (@map_clave_set productos k p { p with stock := p.stock - item.cantidad } hk rfl) sk su
      rw [ih _ i (fun it hit => by
        rw [hcong]
        exact h it (List.mem_cons_of_mem _ hit))]
      exact List.getElem?_set_ne hki

theorem fase2_stock_mono (umbral : Int) (sucursal : String) :
    ∀ (items : List ItemVenta), (∀ it ∈ items, 0 < it.cantidad) →
    ∀ (productos : List Producto) (i : Nat) (p : Producto), productos[i]? = some p →
      ∃ q, (fase2 umbral sucursal productos items).1[i]? = some q ∧ q.stock ≤ p.stock := by
  intro items
  induction items with
  | nil =>
    intro _ productos i p hp
    exact ⟨p, by simpa [fase2] using hp, le_refl _⟩
  | cons item resto ih =>
    intro hpos productos i p hp
    have hpos' : ∀ it ∈ resto, 0 < it.cantidad :=
      fun it hit => hpos it (List.mem_cons_of_mem _ hit)
    cases hfind : buscarRef productos item.sku sucursal with
    | none =>
      simpa [fase2, hfind] using ih hpos' productos i p hp
    | some r =>
      obtain ⟨k, pk⟩ := r
      obtain ⟨hk, _, _⟩ := buscarRef_some hfind
      have hklen : k < productos.length := (List.getElem?_eq_some.mp hk).1
      by_cases hik : i = k
      · subst hik
        have hpk : p = pk := by
          rw [hp] at hk
          exact Option.some.inj hk
        subst hpk
        have h1 : (productos.set i { p with stock := p.stock - item.cantidad })[i]? =
            some { p with stock := p.stock - item.cantidad } :=
          List.getElem?_set_self hklen
        obtain ⟨q, hq, hle⟩ := ih hpos' _ i _ h1
        refine ⟨q, by simpa [fase2, hfind] using hq, ?_⟩
        have hc : 0 < item.cantidad := hpos item (List.mem_cons_self _ _)
        calc q.stock ≤ p.stock - item.cantidad := hle
          _ ≤ p.stock := by omega
      · have h1 : (productos.set k { pk with stock := pk.stock - item.cantidad })[i]? =
            some p := by
          rw [List.getElem?_set_ne (fun h => hik h.symm)]; exact hp
        obtain ⟨q, hq, hle⟩ := ih hpos' _ i _ h1
        exact ⟨q, by simpa [fase2, hfind] using hq, hle⟩

/-- A product index appears in the low-stock list produced by phase 2
exactly when some line item resolves to it and its stock after the whole
pass is at or below the threshold (line-item quantities are positive, per
the data model of the sale interface). -/
theorem fase2_mem_bajos (umbral : Int) (sucursal : String) :
    ∀ (items : List ItemVenta), (∀ it ∈ items, 0 < it.cantidad) →
    ∀ (productos : List Producto) (i : Nat),
      (i ∈ (fase2 umbral sucursal productos items).2 ↔
        ((∃ it ∈ items, (buscarRef productos it.sku sucursal).map (·.1) = some i) ∧
         (∃ q, (fase2 umbral sucursal productos items).1[i]? = some q ∧ q.stock ≤ umbral))) := by
  intro items
  induction items with
  | nil =>
    intro _ productos i
    simp [fase2]
  | cons item resto ih =>
    intro hpos productos i
    have hpos' : ∀ it ∈ resto, 0 < it.cantidad :=
      fun it hit => hpos it (List.mem_cons_of_mem _ hit)
    cases hfind : buscarRef productos item.sku sucursal with
    | none =>
      simp only [fase2, hfind]
      rw [ih hpos' productos i]
      constructor
      · rintro ⟨⟨it, hit, hres⟩, hfin⟩
        exact ⟨⟨it, List.mem_cons_of_mem _ hit, hres⟩, hfin⟩
      · rintro ⟨⟨it, hit, hres⟩, hfin⟩
        rcases List.mem_cons.mp hit with hit0 | hit0
        · subst hit0; rw [hfind] at hres; simp at hres
        · exact ⟨⟨it, hit0, hres⟩, hfin⟩
    | some r =>
      obtain ⟨k, pk⟩ := r
      have hk := (buscarRef_some hfind).1
      have hklen : k < productos.length := (List.getElem?_eq_some.mp hk).1
      have hcong : ∀ sk su,
          (buscarRef (productos.set k { pk with stock := pk.stock - item.cantidad }) sk su).map
              (·.1)
            = (buscarRef productos sk su).map (·.1) :=
        fun sk su => buscarRef_fst_congr
          (@map_clave_set productos k pk { pk with stock := pk.stock - item.cantidad } hk rfl)
          sk su
      have hih := ih hpos' (productos.set k { pk with stock := pk.stock - item.cantidad }) i
      simp only [fase2, hfind]
      constructor
      · intro hmem
        rcases List.mem_append.mp hmem with hmem | hmem
        · by_cases hbajo : pk.stock - item.cantidad ≤ umbral
          · rw [if_pos hbajo] at hmem
            have hik : i = k := List.mem_singleton.mp hmem
            subst hik
            refine ⟨⟨item, List.mem_cons_self _ _, by simp [hfind]⟩, ?_⟩
            obtain ⟨q, hq, hle⟩ := fase2_stock_mono umbral sucursal resto hpos'
              (productos.set i { pk with stock := pk.stock - item.cantidad }) i
              { pk with stock := pk.stock - item.cantidad } (List.getElem?_set_self hklen)
            exact ⟨q, hq, le_trans hle hbajo⟩
          · rw [if_neg hbajo] at hmem
            exact absurd hmem (List.not_mem_nil _)
        · obtain ⟨⟨it, hit, hres⟩, hfin⟩ := hih.mp hmem
          rw [hcong] at hres
          exact ⟨⟨it, List.mem_cons_of_mem _ hit, hres⟩, hfin⟩
      · rintro ⟨⟨it, hit, hres⟩, hfin⟩
        by_cases hresto : ∃ it' ∈ resto,
            (buscarRef productos it'.sku sucursal).map (·.1) = some i
        · obtain ⟨it', hit', hres'⟩ := hresto
          refine List.mem_append.mpr (Or.inr (hih.mpr ⟨⟨it', hit', ?_⟩, hfin⟩))
          rw [hcong]; exact hres'
        · have hik : i = k := by
            rcases List.mem_cons.mp hit with hit0 | hit0
            · subst hit0
              rw [hfind] at hres
              simpa using hres.symm
            · exact absurd ⟨it, hit0, hres⟩ hresto
          subst hik
          have hframe : (fase2 umbral sucursal
              (productos.set i { pk with stock := pk.stock - item.cantidad }) resto).1[i]? =
              (productos.set i { pk with stock := pk.stock - item.cantidad })[i]? := by
            refine fase2_frame umbral sucursal resto _ i (fun it' hit' hres' => ?_)
            rw [hcong] at hres'
            exact hresto ⟨it', hit', hres'⟩
          obtain ⟨q, hq, hle⟩ := hfin
          rw [hframe, List.getElem?_set_self hklen] at hq
          have hqe : q = { pk with stock := pk.stock - item.cantidad } :=
            (Option.some.inj hq).symm
          rw [hqe] at hle
          refine List.mem_append.mpr (Or.inl ?_)
          rw [if_pos hle]
          exact List.mem_singleton.mpr rfl

/-! ### Preservation lemmas for uniqueness and for the persisted documents -/

theorem clave_ne_of_no_match {p : Producto} {sku sucursal : String}
    (h : ¬ (p.sku = sku ∧ p.sucursal = sucursal)) : clave p ≠ (sku, sucursal) := by
  intro hc
  exact h ⟨congrArg Prod.fst hc, congrArg Prod.snd hc⟩

theorem unicidad_agregar (s : Sistema) (newId sku nombre : String) (precio : Rat)
    (stock : Int) (sucursal : String) (h : unicidad s.productos) :
    unicidad (agregar_producto s newId sku nombre precio stock sucursal).1.productos := by
  cases hfind : buscarRef s.productos sku sucursal with
  | some r => simpa [agregar_producto, hfind] using h
  | none =>
    have hnone := buscarRef_eq_none.mp hfind
    simp only [agregar_producto, hfind, guardar_datos]
    unfold unicidad at h ⊢
    rw [List.map_append]
    rw [List.nodup_append]
    refine ⟨h, List.nodup_singleton _, ?_⟩
    intro x hx hx'
    obtain ⟨p, hp, hpx⟩ := List.mem_map.mp hx
    subst hpx
    have hx2 : clave p = (sku, sucursal) := by
      simpa [clave] using hx'
    exact clave_ne_of_no_match (hnone p hp) hx2

theorem unicidad_set_stock {s : List Producto} {i : Nat} {p : Producto} (st : Int)
    (hp : s[i]? = some p) (h : unicidad s) :
    unicidad (s.set i { p with stock := st }) := by
  unfold unicidad at h ⊢
  rw [@map_clave_set s i p { p with stock := st } hp rfl]
  exact h

theorem unicidad_procesarFilas :
    ∀ (filas : List Fila) (s : Sistema) (ids : List String) (creados actualizados : Nat),
      unicidad s.productos →
      unicidad (procesarFilas s ids creados actualizados filas).sistema.productos := by
  intro filas
  induction filas with
  | nil => intro s ids cr act h; simpa [procesarFilas] using h
  | cons fila resto ih =>
    intro s ids cr act h
    by_cases hsuc : fila.sucursal ∈ s.sucursales
    · simp only [procesarFilas, if_pos hsuc]
      cases hfind : buscarRef s.productos fila.sku fila.sucursal with
      | some r =>
        obtain ⟨i, p⟩ := r
        have hp := (buscarRef_some hfind).1
        cases hst : fila.stock with
        | none => simpa using h
        | some st => exact ih _ _ _ _ (unicidad_set_stock _ hp h)
      | none =>
        cases hpr : fila.precio with
        | none => simpa using h
        | some pr =>
          cases hst : fila.stock with
          | none => simpa using h
          | some st => exact ih _ _ _ _ (unicidad_agregar _ _ _ _ _ _ _ h)
    · simp only [procesarFilas, if_neg hsuc]
      cases hfind : buscarRef s.productos fila.sku fila.sucursal with
      | some r =>
        obtain ⟨i, p⟩ := r
        have hp := (buscarRef_some hfind).1
        cases hst : fila.stock with
        | none => simpa using h
        | some st => exact ih _ _ _ _ (unicidad_set_stock _ hp h)
      | none =>
        cases hpr : fila.precio with
        | none => simpa using h
        | some pr =>
          cases hst : fila.stock with
          | none => simpa using h
          | some st => exact ih _ _ _ _ (unicidad_agregar _ _ _ _ _ _ _ h)

theorem procesarFilas_creados_le :
    ∀ (filas : List Fila) (s : Sistema) (ids : List String) (creados actualizados : Nat),
      creados ≤ (procesarFilas s ids creados actualizados filas).creados := by
  intro filas
  induction filas with
  | nil => intro s ids cr act; simp [procesarFilas]
  | cons fila resto ih =>
    intro s ids cr act
    simp only [procesarFilas]
    cases hfind : buscarRef
        (if fila.sucursal ∈ s.sucursales then s
         else { s with sucursales := s.sucursales ++ [fila.sucursal] }).productos
        fila.sku fila.sucursal with
    | some r =>
      obtain ⟨i, p⟩ := r
      cases fila.stock with
      | none => simp
      | some st => simpa using ih _ _ _ _
    | none =>
      cases fila.precio with
      | none =>
        cases fila.stock <;> simp
      | some pr =>
        cases fila.stock with
        | none => simp
        | some st =>
          calc cr ≤ cr + 1 := Nat.le_succ _
            _ ≤ _ := ih _ _ _ _

theorem procesarFilas_disk_of_no_create :
    ∀ (filas : List Fila) (s : Sistema) (ids : List String) (creados actualizados : Nat),
      (procesarFilas s ids creados actualizados filas).creados = creados →
      (procesarFilas s ids creados actualizados filas).sistema.disk = s.disk := by
  intro filas
  induction filas with
  | nil => intro s ids cr act _; rfl
  | cons fila resto ih =>
    intro s ids cr act hcr
    by_cases hsuc : fila.sucursal ∈ s.sucursales
    · simp only [procesarFilas, if_pos hsuc] at hcr ⊢
      cases hfind : buscarRef s.productos fila.sku fila.sucursal with
      | some r =>
        obtain ⟨i, p⟩ := r
        rw [hfind] at hcr
        cases hst : fila.stock with
        | none => rfl
        | some st =>
          rw [hst] at hcr
          exact ih _ _ _ _ hcr
      | none =>
        rw [hfind] at hcr
        cases hpr : fila.precio with
        | none => cases fila.stock <;> rfl
        | some pr =>
          rw [hpr] at hcr
          cases hst : fila.stock with
          | none => rfl
          | some st =>
            rw [hst] at hcr
            exfalso
            have hcr2 : (procesarFilas
                (agregar_producto s (ids.headD "") fila.sku fila.nombre pr st fila.sucursal).1
                ids.tail (cr + 1) act resto).creados = cr := hcr
            have hle := procesarFilas_creados_le resto
              (agregar_producto s (ids.headD "") fila.sku fila.nombre pr st fila.sucursal).1
              ids.tail (cr + 1) act
            omega
    · simp only [procesarFilas, if_neg hsuc] at hcr ⊢
      cases hfind : buscarRef
          { s with sucursales := s.sucursales ++ [fila.sucursal] }.productos
          fila.sku fila.sucursal with
      | some r =>
        obtain ⟨i, p⟩ := r
        rw [hfind] at hcr
        cases hst : fila.stock with
        | none => rfl
        | some st =>
          rw [hst] at hcr
          exact ih _ _ _ _ hcr
      | none =>
        rw [hfind] at hcr
        cases hpr : fila.precio with
        | none => cases fila.stock <;> rfl
        | some pr =>
          rw [hpr] at hcr
          cases hst : fila.stock with
          | none => rfl
          | some st =>
            rw [hst] at hcr
            exfalso
            have hcr2 : (procesarFilas
                (agregar_producto { s with sucursales := s.sucursales ++ [fila.sucursal] }
                  (ids.headD "") fila.sku fila.nombre pr st fila.sucursal).1
                ids.tail (cr + 1) act resto).creados = cr := hcr
            have hle := procesarFilas_creados_le resto
              (agregar_producto { s with sucursales := s.sucursales ++ [fila.sucursal] }
                (ids.headD "") fila.sku fila.nombre pr st fila.sucursal).1
              ids.tail (cr + 1) act
            omega

theorem cargar_datos_of_nonempty (s : Sistema) (h : s.disk.sucursalesDoc ≠ []) :
    cargar_datos s = { s with
      productos := s.disk.inventario,
      sucursales := s.disk.sucursalesDoc,
      ventas := s.disk.ventasDoc } := by
  unfold cargar_datos
  simp [h]

theorem unicidad_procesar_carga (s : Sistema) (ids : List String) (filas : List Fila)
    (h : unicidad s.productos) :
    unicidad (procesar_carga_csv s ids filas).1.productos := by
  have hu := unicidad_procesarFilas filas s ids 0 0 h
  unfold procesar_carga_csv
  by_cases hok : (procesarFilas s ids 0 0 filas).ok
  · simpa [hok, guardar_datos] using hu
  · simpa [hok] using hu

/-! ### Claims -/

/-- C1: the claim states that every reachable state keeps all stocks
non-negative and that `registrar_venta` rejects any sale that would make
a stock negative before mutating anything.  The code violates this: from
the reachable state built by loading a store with one branch and adding
a product with stock 5, a sale whose two line items both reference that
product with quantity 3 passes the per-item validation (each item is
checked against the un-decremented stock 5) and is accepted, leaving the
product with stock -1. -/
theorem C1_venta_duplicada_deja_stock_negativo :
    (registrar_venta
        ((agregar_producto (sistemaInicial ⟨[], ["Centro"], []⟩)
            "id-1" "TEC-001" "Teclado" 10 5 "Centro").1)
        "VTA-1" "2026-10-12" [⟨"TEC-001", 3⟩, ⟨"TEC-001", 3⟩] "Centro" 60).2.1 = true ∧
    (∃ p ∈ (registrar_venta
        ((agregar_producto (sistemaInicial ⟨[], ["Centro"], []⟩)
            "id-1" "TEC-001" "Teclado" 10 5 "Centro").1)
        "VTA-1" "2026-10-12" [⟨"TEC-001", 3⟩, ⟨"TEC-001", 3⟩] "Centro" 60).1.productos,
      p.stock < 0) := by
  decide

/-- C2, counterexample: the claim states that a bulk import with a
malformed row persists nothing.  But a row that creates a new product
does so through `agregar_producto`, which saves immediately; a later
malformed row aborts the pass without undoing that save, so the
persisted documents after the failed call differ from those before. -/
theorem C2_contraejemplo_carga_fallida_persiste :
    (procesar_carga_csv ⟨[], ["X"], [], 10, ⟨[], ["X"], []⟩⟩ ["id1"]
        [⟨"A", "N", some 1, some 2, "X"⟩, ⟨"B", "M", some 1, none, "X"⟩]).2.1 = false ∧
    (procesar_carga_csv ⟨[], ["X"], [], 10, ⟨[], ["X"], []⟩⟩ ["id1"]
        [⟨"A", "N", some 1, some 2, "X"⟩, ⟨"B", "M", some 1, none, "X"⟩]).1.disk
      ≠ (⟨[], ["X"], []⟩ : Disk) := by
  decide

/-- C2, amended: a failing import reports failure and skips the final
save, so if no row of the pass created a product (every valid row merged
into an existing record) the persisted documents after the call equal
those before the call; rows that created products had already been
persisted by `agregar_producto`'s own save. -/
theorem C2_carga_fallida_sin_creaciones_no_persiste (s : Sistema) (ids : List String)
    (filas : List Fila)
    (hfail : (procesar_carga_csv s ids filas).2.1 = false)
    (hnuevo : (procesarFilas s ids 0 0 filas).creados = 0) :
    (procesar_carga_csv s ids filas).1.disk = s.disk := by
  unfold procesar_carga_csv at hfail ⊢
  by_cases hok : (procesarFilas s ids 0 0 filas).ok
  · simp [hok] at hfail
  · simpa [hok] using procesarFilas_disk_of_no_create filas s ids 0 0 hnuevo

theorem C2_carga_fallida_sin_creaciones_no_persiste_witness :
    (procesar_carga_csv
        ⟨[⟨"1", "A", "N", 1, 1, "X"⟩], ["X"], [], 10, ⟨[⟨"1", "A", "N", 1, 1, "X"⟩], ["X"], []⟩⟩
        [] [⟨"A", "N", some 1, none, "X"⟩]).1.disk
      = (⟨[⟨"1", "A", "N", 1, 1, "X"⟩], ["X"], []⟩ : Disk) :=
  C2_carga_fallida_sin_creaciones_no_persiste
    ⟨[⟨"1", "A", "N", 1, 1, "X"⟩], ["X"], [], 10, ⟨[⟨"1", "A", "N", 1, 1, "X"⟩], ["X"], []⟩⟩
    [] [⟨"A", "N", some 1, none, "X"⟩] (by decide) (by decide)

/-- C9: `editar_producto` merges every key present in the patch dict,
including `'id'`, `'sku'` and `'sucursal'`, and this lets a successful
edit break the (sku, sucursal) uniqueness invariant: patching
`{'sucursal': "Y"}` onto the product ("A", "X") of a store that also
holds ("A", "Y") yields two products with the key ("A", "Y"). -/
theorem C9_editar_puede_romper_unicidad :
    actualizar ⟨"1", "A", "N", 1, 1, "X"⟩ ⟨some "9", some "B", none, none, none, some "Z"⟩
      = ⟨"9", "B", "N", 1, 1, "Z"⟩ ∧
    unicidad [⟨"1", "A", "N", 1, 1, "X"⟩, ⟨"2", "A", "N", 1, 1, "Y"⟩] ∧
    (editar_producto
        ⟨[⟨"1", "A", "N", 1, 1, "X"⟩, ⟨"2", "A", "N", 1, 1, "Y"⟩], ["X", "Y"], [], 10,
          ⟨[], [], []⟩⟩
        "A" "X" ⟨none, none, none, none, none, some "Y"⟩).2 = true ∧
    ¬ unicidad (editar_producto
        ⟨[⟨"1", "A", "N", 1, 1, "X"⟩, ⟨"2", "A", "N", 1, 1, "Y"⟩], ["X", "Y"], [], 10,
          ⟨[], [], []⟩⟩
        "A" "X" ⟨none, none, none, none, none, some "Y"⟩).1.productos := by
  decide

/-- C3: when any line item of a sale fails validation (unresolved
product, or stock below the quantity), `registrar_venta` returns
failure with an empty low-stock list and no sale id, and the state it
leaves behind is exactly the reload of the persisted documents: products,
branches and sales in memory all equal the documents, the documents
themselves are untouched, and in particular no product mutation and no
appended sale of this call survives — along with any other unsaved
in-memory changes.  (Stated for stores whose persisted branches document
is non-empty; an empty one would additionally trigger the first-run
bootstrap inside the reload.) -/
theorem C3_venta_invalida_recarga_sin_mutar (s : Sistema) (ventaId fecha : String)
    (items_venta : List ItemVenta) (sucursal : String) (total : Rat)
    (hbad : ∃ it ∈ items_venta, validarItem s.productos sucursal it = false)
    (hdoc : s.disk.sucursalesDoc ≠ []) :
    registrar_venta s ventaId fecha items_venta sucursal total
      = (cargar_datos s, false, [], none) ∧
    (registrar_venta s ventaId fecha items_venta sucursal total).1.productos
      = s.disk.inventario ∧
    (registrar_venta s ventaId fecha items_venta sucursal total).1.ventas
      = s.disk.ventasDoc ∧
    (registrar_venta s ventaId fecha items_venta sucursal total).1.sucursales
      = s.disk.sucursalesDoc ∧
    (registrar_venta s ventaId fecha items_venta sucursal total).1.disk = s.disk := by
  have hall : items_venta.all (validarItem s.productos sucursal) = false := by
    cases hb : items_venta.all (validarItem s.productos sucursal) with
    | false => rfl
    | true =>
      obtain ⟨it, hit, hv⟩ := hbad
      have := List.all_eq_true.mp hb it hit
      rw [hv] at this
      exact absurd this (by simp)
  have h1 : registrar_venta s ventaId fecha items_venta sucursal total
      = (cargar_datos s, false, [], none) := by
    simp [registrar_venta, hall]
  have hcd := cargar_datos_of_nonempty s hdoc
  refine ⟨h1, ?_, ?_, ?_, ?_⟩ <;> rw [h1, hcd]

theorem C3_venta_invalida_recarga_sin_mutar_witness :
    registrar_venta (⟨[], ["X"], [], 10, ⟨[], ["X"], []⟩⟩ : Sistema) "v" "f"
        [⟨"A", 1⟩] "X" 0
      = (cargar_datos ⟨[], ["X"], [], 10, ⟨[], ["X"], []⟩⟩, false, [], none) :=
  (C3_venta_invalida_recarga_sin_mutar ⟨[], ["X"], [], 10, ⟨[], ["X"], []⟩⟩ "v" "f"
    [⟨"A", 1⟩] "X" 0 (by decide) (by decide)).1

/-- C7: `agregar_producto` fails exactly when the (sku, sucursal) lookup
already finds a match, in which case the whole state (memory and
documents) is returned untouched; otherwise it appends exactly one new
product carrying the given fields and the freshly generated id — distinct
from every existing id, under the freshness of the uuid oracle — and
returns success. -/
theorem C7_agregar_producto_contrato (s : Sistema) (newId sku nombre : String)
    (precio : Rat) (stock : Int) (sucursal : String)
    (hfresh : ∀ p ∈ s.productos, p.id ≠ newId) :
    ((agregar_producto s newId sku nombre precio stock sucursal).2.1 = false ↔
      (buscar_producto_por_sku_y_sucursal s.productos sku sucursal).isSome) ∧
    ((buscar_producto_por_sku_y_sucursal s.productos sku sucursal).isSome →
      (agregar_producto s newId sku nombre precio stock sucursal).1 = s) ∧
    (buscar_producto_por_sku_y_sucursal s.productos sku sucursal = none →
      (agregar_producto s newId sku nombre precio stock sucursal).1.productos
        = s.productos ++ [⟨newId, sku, nombre, precio, stock, sucursal⟩] ∧
      (agregar_producto s newId sku nombre precio stock sucursal).2.1 = true ∧
      ∀ p ∈ s.productos, p.id ≠ newId) := by
  unfold buscar_producto_por_sku_y_sucursal
  cases hfind : buscarRef s.productos sku sucursal with
  | some r => simp [agregar_producto, hfind]
  | none =>
    simp [agregar_producto, hfind, guardar_datos]
    exact hfresh

theorem C7_agregar_producto_contrato_witness :
    (agregar_producto (⟨[], ["X"], [], 10, ⟨[], ["X"], []⟩⟩ : Sistema)
        "u1" "A" "N" 1 2 "X").1.productos = [⟨"u1", "A", "N", 1, 2, "X"⟩] ∧
    (agregar_producto (⟨[], ["X"], [], 10, ⟨[], ["X"], []⟩⟩ : Sistema)
        "u1" "A" "N" 1 2 "X").2.1 = true :=
  ⟨((C7_agregar_producto_contrato ⟨[], ["X"], [], 10, ⟨[], ["X"], []⟩⟩
      "u1" "A" "N" 1 2 "X" (by decide)).2.2 (by decide)).1,
   ((C7_agregar_producto_contrato ⟨[], ["X"], [], 10, ⟨[], ["X"], []⟩⟩
      "u1" "A" "N" 1 2 "X" (by decide)).2.2 (by decide)).2.1⟩

/-- C8: with a patch drawn from {name, price, stock}, `editar_producto`
fails exactly when no product matches (sku, sucursal), leaving the state
untouched; otherwise it merges exactly the present patch fields into the
matched record — id, sku and sucursal stay as they were — and every other
position of the product list is unchanged. -/
theorem C8_editar_producto_contrato (s : Sistema) (sku sucursal : String)
    (nuevos_datos : DatosEdicion)
    (hid : nuevos_datos.id = none) (hsku : nuevos_datos.sku = none)
    (hsuc : nuevos_datos.sucursal = none) :
    ((editar_producto s sku sucursal nuevos_datos).2 = false ↔
      buscarRef s.productos sku sucursal = none) ∧
    (buscarRef s.productos sku sucursal = none →
      (editar_producto s sku sucursal nuevos_datos).1 = s) ∧
    (∀ i p, buscarRef s.productos sku sucursal = some (i, p) →
      ((editar_producto s sku sucursal nuevos_datos).1.productos[i]?
          = some ⟨p.id, p.sku, nuevos_datos.nombre.getD p.nombre,
              nuevos_datos.precio.getD p.precio, nuevos_datos.stock.getD p.stock,
              p.sucursal⟩ ∧
       (∀ j, j ≠ i →
          (editar_producto s sku sucursal nuevos_datos).1.productos[j]? = s.productos[j]?) ∧
       (editar_producto s sku sucursal nuevos_datos).1.productos.length
          = s.productos.length)) := by
  cases hfind : buscarRef s.productos sku sucursal with
  | none => simp [editar_producto, hfind]
  | some r =>
    obtain ⟨i0, p0⟩ := r
    have hp0 := (buscarRef_some hfind).1
    have hlen : i0 < s.productos.length := (List.getElem?_eq_some.mp hp0).1
    refine ⟨by simp [editar_producto, hfind], ?_, ?_⟩
    · intro hnone; exact absurd hnone (by simp)
    · intro i p hsome
      have h2 := Option.some.inj hsome
      have hi : i0 = i := congrArg Prod.fst h2
      have hp2 : p0 = p := congrArg Prod.snd h2
      subst hi
      subst hp2
      refine ⟨?_, ?_, ?_⟩
      · simp [editar_producto, hfind, guardar_datos, actualizar, hid, hsku, hsuc,
          List.getElem?_set_self hlen]
      · intro j hj
        simp [editar_producto, hfind, guardar_datos,
          List.getElem?_set_ne (fun h => hj h.symm)]
      · simp [editar_producto, hfind, guardar_datos]

theorem C8_editar_producto_contrato_witness :
    (editar_producto (⟨[⟨"1", "A", "N", 1, 1, "X"⟩], ["X"], [], 10, ⟨[], [], []⟩⟩ : Sistema)
        "A" "X" ⟨none, none, some "M", none, none, none⟩).1.productos[0]?
      = some ⟨"1", "A", "M", 1, 1, "X"⟩ :=
  ((C8_editar_producto_contrato ⟨[⟨"1", "A", "N", 1, 1, "X"⟩], ["X"], [], 10, ⟨[], [], []⟩⟩
      "A" "X" ⟨none, none, some "M", none, none, none⟩ rfl rfl rfl).2.2 0
      ⟨"1", "A", "N", 1, 1, "X"⟩ (by decide)).1

/-- C4: a successful transfer with distinct origin and destination
decrements the origin record by the quantity; when a destination record
exists it is incremented by the quantity and no record is added;
otherwise the (already decremented) origin record is cloned to the end
of the list with the fresh id, the destination branch, and stock equal
to the transferred quantity. -/
theorem C4_transferencia_conservacion (s : Sistema) (newId sku : String)
    (cantidad : Int) (origen destino : String) (i : Nat) (p : Producto)
    (hne : origen ≠ destino)
    (horig : buscarRef s.productos sku origen = some (i, p))
    (hstock : cantidad ≤ p.stock) :
    (transferir_productos s newId sku cantidad origen destino).2.1 = true ∧
    (transferir_productos s newId sku cantidad origen destino).1.productos[i]?
      = some { p with stock := p.stock - cantidad } ∧
    (∀ j q, buscarRef s.productos sku destino = some (j, q) →
      ((transferir_productos s newId sku cantidad origen destino).1.productos[j]?
          = some { q with stock := q.stock + cantidad } ∧
       (transferir_productos s newId sku cantidad origen destino).1.productos.length
          = s.productos.length)) ∧
    (buscarRef s.productos sku destino = none →
      (transferir_productos s newId sku cantidad origen destino).1.productos
        = s.productos.set i { p with stock := p.stock - cantidad }
            ++ [{ p with id := newId, sucursal := destino, stock := cantidad }]) := by
  have hps := buscarRef_some horig
  have hilen : i < s.productos.length := buscarRef_lt_length horig
  have hnlt : ¬ (p.stock < cantidad) := not_lt.mpr hstock
  cases hdest : buscarRef s.productos sku destino with
  | some r =>
    obtain ⟨j, q⟩ := r
    have hqs := buscarRef_some hdest
    have hij : i ≠ j := by
      intro he
      subst he
      have h3 := hqs.1
      rw [hps.1] at h3
      have hpq := Option.some.inj h3
      apply hne
      rw [← hps.2.2, hpq, hqs.2.2]
    have hprods : (transferir_productos s newId sku cantidad origen destino).1.productos
        = modifyIdx (s.productos.set i { p with stock := p.stock - cantidad }) j
            (fun r => { r with stock := r.stock + cantidad }) := by
      simp [transferir_productos, horig, hnlt, hdest, guardar_datos]
    refine ⟨?_, ?_, ?_, ?_⟩
    · simp [transferir_productos, horig, hnlt, hdest]
    · rw [hprods, getElem?_modifyIdx_ne (Ne.symm hij)]
      exact List.getElem?_set_self hilen
    · intro j2 q2 hsome
      have h2 := Option.some.inj hsome
      have hj : j = j2 := congrArg Prod.fst h2
      have hq : q = q2 := congrArg Prod.snd h2
      subst hj
      subst hq
      constructor
      · have hsetj : (s.productos.set i { p with stock := p.stock - cantidad })[j]?
            = some q := by
          rw [List.getElem?_set_ne hij]
          exact hqs.1
        rw [hprods, getElem?_modifyIdx_self hsetj]
      · rw [hprods, length_modifyIdx, List.length_set]
    · intro hnone
      exact absurd hnone (by simp)
  | none =>
    have hprods : (transferir_productos s newId sku cantidad origen destino).1.productos
        = s.productos.set i { p with stock := p.stock - cantidad }
            ++ [{ p with id := newId, sucursal := destino, stock := cantidad }] := by
      simp [transferir_productos, horig, hnlt, hdest, guardar_datos]
    refine ⟨?_, ?_, ?_, ?_⟩
    · simp [transferir_productos, horig, hnlt, hdest]
    · rw [hprods, List.getElem?_append, if_pos (by rw [List.length_set]; exact hilen)]
      exact List.getElem?_set_self hilen
    · intro j2 q2 hsome
      exact absurd hsome (by simp)
    · intro _
      exact hprods

theorem C4_transferencia_conservacion_witness :
    (transferir_productos
        (⟨[⟨"1", "A", "N", 1, 5, "X"⟩, ⟨"2", "A", "N", 1, 2, "Y"⟩], ["X", "Y"], [], 10,
          ⟨[], [], []⟩⟩ : Sistema) "u9" "A" 3 "X" "Y").1.productos[0]?
      = some ⟨"1", "A", "N", 1, 2, "X"⟩ ∧
    (transferir_productos
        (⟨[⟨"1", "A", "N", 1, 5, "X"⟩, ⟨"2", "A", "N", 1, 2, "Y"⟩], ["X", "Y"], [], 10,
          ⟨[], [], []⟩⟩ : Sistema) "u9" "A" 3 "X" "Y").1.productos[1]?
      = some ⟨"2", "A", "N", 1, 5, "Y"⟩ :=
  ⟨(C4_transferencia_conservacion
      ⟨[⟨"1", "A", "N", 1, 5, "X"⟩, ⟨"2", "A", "N", 1, 2, "Y"⟩], ["X", "Y"], [], 10,
        ⟨[], [], []⟩⟩ "u9" "A" 3 "X" "Y" 0 ⟨"1", "A", "N", 1, 5, "X"⟩
      (by decide) (by decide) (by decide)).2.1,
   ((C4_transferencia_conservacion
      ⟨[⟨"1", "A", "N", 1, 5, "X"⟩, ⟨"2", "A", "N", 1, 2, "Y"⟩], ["X", "Y"], [], 10,
        ⟨[], [], []⟩⟩ "u9" "A" 3 "X" "Y" 0 ⟨"1", "A", "N", 1, 5, "X"⟩
      (by decide) (by decide) (by decide)).2.2.1 1 ⟨"2", "A", "N", 1, 2, "Y"⟩
      (by decide)).1⟩

/-- C10: a transfer whose origin equals its destination, on a product
with sufficient stock, succeeds and is a no-op on the in-memory store:
the destination lookup resolves to the very record that is about to be
decremented, so the decrement and the increment cancel, no clone is
appended, and the save simply rewrites the documents with the unchanged
collections. -/
theorem C10_transferencia_origen_igual_destino (s : Sistema) (newId sku : String)
    (cantidad : Int) (origen : String) (i : Nat) (p : Producto)
    (horig : buscarRef s.productos sku origen = some (i, p))
    (hstock : cantidad ≤ p.stock) :
    (transferir_productos s newId sku cantidad origen origen).2.1 = true ∧
    (transferir_productos s newId sku cantidad origen origen).1.productos = s.productos ∧
    (transferir_productos s newId sku cantidad origen origen).1.ventas = s.ventas ∧
    (transferir_productos s newId sku cantidad origen origen).1.sucursales = s.sucursales ∧
    (transferir_productos s newId sku cantidad origen origen).1.disk
      = ⟨s.productos, s.sucursales, s.ventas⟩ := by
  have hps := buscarRef_some horig
  have hnlt : ¬ (p.stock < cantidad) := not_lt.mpr hstock
  have hprod : modifyIdx (s.productos.set i { p with stock := p.stock - cantidad }) i
      (fun r => { r with stock := r.stock + cantidad }) = s.productos := by
    rw [modifyIdx_set_same]
    show s.productos.set i
        (⟨p.id, p.sku, p.nombre, p.precio, p.stock - cantidad + cantidad, p.sucursal⟩ :
          Producto) = s.productos
    rw [Int.sub_add_cancel]
    exact set_of_getElem? hps.1
  refine ⟨?_, ?_, ?_, ?_, ?_⟩ <;>
    simp [transferir_productos, horig, hnlt, guardar_datos, hprod]

theorem C10_transferencia_origen_igual_destino_witness :
    (transferir_productos
        (⟨[⟨"1", "A", "N", 1, 9, "X"⟩], ["X"], [], 10, ⟨[], [], []⟩⟩ : Sistema)
        "u7" "A" 4 "X" "X").2.1 = true ∧
    (transferir_productos
        (⟨[⟨"1", "A", "N", 1, 9, "X"⟩], ["X"], [], 10, ⟨[], [], []⟩⟩ : Sistema)
        "u7" "A" 4 "X" "X").1.productos = [⟨"1", "A", "N", 1, 9, "X"⟩] :=
  ⟨(C10_transferencia_origen_igual_destino
      ⟨[⟨"1", "A", "N", 1, 9, "X"⟩], ["X"], [], 10, ⟨[], [], []⟩⟩
      "u7" "A" 4 "X" 0 ⟨"1", "A", "N", 1, 9, "X"⟩ (by decide) (by decide)).1,
   (C10_transferencia_origen_igual_destino
      ⟨[⟨"1", "A", "N", 1, 9, "X"⟩], ["X"], [], 10, ⟨[], [], []⟩⟩
      "u7" "A" 4 "X" 0 ⟨"1", "A", "N", 1, 9, "X"⟩ (by decide) (by decide)).2.1⟩

/-- C5: starting from a store satisfying the (sku, sucursal) uniqueness
invariant, any sequence of `agregar_producto` and `procesar_carga_csv`
calls preserves it: `agregar_producto` refuses to create a duplicate and
the import path merges stock into an existing record instead of creating
a second one. -/
theorem C5_unicidad_invariante (s : Sistema) (ops : List OperacionC5)
    (h : unicidad s.productos) :
    unicidad (ops.foldl ejecutarC5 s).productos := by
  induction ops generalizing s with
  | nil => exact h
  | cons op resto ih =>
    cases op with
    | agregar newId sku nombre precio stock sucursal =>
      exact ih _ (unicidad_agregar s newId sku nombre precio stock sucursal h)
    | carga ids filas =>
      exact ih _ (unicidad_procesar_carga s ids filas h)

theorem C5_unicidad_invariante_witness :
    unicidad (([OperacionC5.agregar "u1" "A" "N" 1 1 "X",
        OperacionC5.carga ["u2"]
          [⟨"A", "M", some 2, some 3, "X"⟩, ⟨"B", "M", some 1, some 1, "Y"⟩]].foldl
        ejecutarC5 ⟨[], ["X"], [], 10, ⟨[], ["X"], []⟩⟩).productos) :=
  C5_unicidad_invariante ⟨[], ["X"], [], 10, ⟨[], ["X"], []⟩⟩
    [OperacionC5.agregar "u1" "A" "N" 1 1 "X",
     OperacionC5.carga ["u2"]
       [⟨"A", "M", some 2, some 3, "X"⟩, ⟨"B", "M", some 1, some 1, "Y"⟩]]
    (by decide)

/-- C6: on a successful sale the low-stock list is exactly the list built
by the phase-2 loop — one check per line item, in order, appending the
resolved product (here: its index, modelling the appended dict
reference) right after its decrement when the stock at that moment is at
or below the threshold, so the same product can appear several times —
and a product appears in the returned list exactly when some line item
resolves to it and its post-sale stock is at or below the configured
threshold.  Line-item quantities are positive, per the SaleItem data
model. -/
theorem C6_stock_bajo_tras_venta (s : Sistema) (ventaId fecha : String)
    (items_venta : List ItemVenta) (sucursal : String) (total : Rat)
    (hpos : ∀ it ∈ items_venta, 0 < it.cantidad)
    (hval : items_venta.all (validarItem s.productos sucursal) = true) :
    (registrar_venta s ventaId fecha items_venta sucursal total).2.1 = true ∧
    (registrar_venta s ventaId fecha items_venta sucursal total).2.2.1
      = (fase2 s.stock_minimo_alerta sucursal s.productos items_venta).2 ∧
    ∀ i : Nat,
      (i ∈ (registrar_venta s ventaId fecha items_venta sucursal total).2.2.1 ↔
        ((∃ it ∈ items_venta,
            (buscarRef s.productos it.sku sucursal).map (·.1) = some i) ∧
         (∃ q, (registrar_venta s ventaId fecha items_venta sucursal total).1.productos[i]?
             = some q ∧ q.stock ≤ s.stock_minimo_alerta))) := by
  have hb : (registrar_venta s ventaId fecha items_venta sucursal total).2.2.1
      = (fase2 s.stock_minimo_alerta sucursal s.productos items_venta).2 := by
    simp [registrar_venta, hval]
  have hc : (registrar_venta s ventaId fecha items_venta sucursal total).1.productos
      = (fase2 s.stock_minimo_alerta sucursal s.productos items_venta).1 := by
    simp [registrar_venta, hval, guardar_datos]
  refine ⟨by simp [registrar_venta, hval], hb, ?_⟩
  intro i
  rw [hb, hc]
  exact fase2_mem_bajos s.stock_minimo_alerta sucursal items_venta hpos s.productos i

theorem C6_stock_bajo_tras_venta_witness :
    (registrar_venta (⟨[⟨"1", "A", "N", 1, 5, "X"⟩], ["X"], [], 10, ⟨[], [], []⟩⟩ : Sistema)
        "v" "f" [⟨"A", 1⟩] "X" 1).2.1 = true ∧
    (registrar_venta (⟨[⟨"1", "A", "N", 1, 5, "X"⟩], ["X"], [], 10, ⟨[], [], []⟩⟩ : Sistema)
        "v" "f" [⟨"A", 1⟩] "X" 1).2.2.1
      = (fase2 10 "X" [⟨"1", "A", "N", 1, 5, "X"⟩] [⟨"A", 1⟩]).2 :=
  ⟨(C6_stock_bajo_tras_venta ⟨[⟨"1", "A", "N", 1, 5, "X"⟩], ["X"], [], 10, ⟨[], [], []⟩⟩
      "v" "f" [⟨"A", 1⟩] "X" 1 (by decide) (by decide)).1,
   (C6_stock_bajo_tras_venta ⟨[⟨"1", "A", "N", 1, 5, "X"⟩], ["X"], [], 10, ⟨[], [], []⟩⟩
      "v" "f" [⟨"A", 1⟩] "X" 1 (by decide) (by decide)).2.1⟩
